import Mathlib

/-!
Verification of the libdns/domainnameshop provider (Go) against its
natural-language specification.

The Go sources (client.go, models.go, provider.go) are shallowly embedded
below.  Pure string manipulation is translated to Lean `String` functions
over the underlying character list (Go strings are byte slices; every
string appearing in the repository and in the claims is ASCII, where the
two views agree).  The stateful provider (its two mutex-guarded caches) is
embedded as explicit state passing over a `ProviderState` value.  The HTTP
transport is out of scope per the specification ("execute signed request,
decode JSON response"): it is abstracted as a `Server` oracle giving the
decoded responses, operations additionally return the list of issued
`Request`s so that theorems can talk about which network calls happened.
Transport-level failures are not modelled (the spec treats the transport
as an external collaborator; every error path that originates in this
repository's own logic is modelled faithfully).
-/

/-- Go `strings.TrimSuffix(s, suffix)`: `s` without the provided trailing
`suffix`; unchanged if `s` does not end with `suffix`. -/
def trimSuffix (s suffix : String) : String :=
  if suffix.data <:+ s.data then
    String.mk (s.data.take (s.data.length - suffix.data.length))
  else s

/-- Go `removeFQDNTrailingDot` (client.go): `strings.TrimSuffix(fqdn, ".")`. -/
def removeFQDNTrailingDot (fqdn : String) : String :=
  trimSuffix fqdn "."

/-- Go `normalizeRecordName` (client.go): strip the trailing dot of the
name, strip the (dot-stripped) zone as a suffix, substitute "@" for an
empty remainder, strip any resulting trailing dot. -/
def normalizeRecordName (recordName : String) (zone : String) : String :=
  let normalized := removeFQDNTrailingDot recordName
  let normalized := trimSuffix normalized (removeFQDNTrailingDot zone)
  let normalized := if normalized = "" then "@" else normalized
  removeFQDNTrailingDot normalized

/-- Go struct `Service` (models.go). -/
structure Service where
  DNS : Bool := false
  Email : Bool := false
  Registrar : Bool := false
  Webhotel : String := ""
  deriving Repr, DecidableEq

/-- Go struct `dsZone` (models.go).  Field `Typ`-style renaming is not
needed here; all Go field names are legal.  The zero value of every field
matches Go's zero value. -/
structure dsZone where
  Name : String := ""
  ID : Int := 0
  ExpiryDate : String := ""
  Nameservers : List String := []
  RegisteredDate : String := ""
  Registrant : String := ""
  Renew : Bool := false
  Services : Service := {}
  Status : String := ""
  deriving Repr, DecidableEq

/-- Go struct `dsDNSRecord` (models.go).  `Typ` stands for the Go field
`Type` (a reserved word in Lean).  The field defaults are Go's zero
values, so `({} : dsDNSRecord)` is the Go zero struct `dsDNSRecord{}`
that client.go compares against. -/
structure dsDNSRecord where
  ID : Int := 0
  Host : String := ""
  Data : String := ""
  Typ : String := ""
  TTL : Int := 0
  Priority : String := ""
  Weight : String := ""
  Port : String := ""
  deriving Repr, DecidableEq

/-- One HTTP request issued by the provider, as observable by the
transport.  The query-string / URL encoding (`url.QueryEscape`, the
`fmt.Sprintf` URL assembly) belongs to the transport layer, which the
spec places out of scope; a request is therefore recorded by its method,
path parameters and decoded body. -/
inductive Request where
  /-- GET /domains?domain={domainQuery} -/
  | getDomains (domainQuery : String)
  /-- GET /domains/{domainID}/dns -/
  | getRecords (domainID : Int)
  /-- POST /domains/{domainID}/dns with a JSON record body -/
  | postCreate (domainID : Int) (body : dsDNSRecord)
  /-- POST /domains/{domainID}/dns/{recordID} with a JSON record body -/
  | postUpdate (domainID : Int) (recordID : Int) (body : dsDNSRecord)
  /-- DELETE /domains/{domainID}/dns/{recordID} -/
  | deleteReq (domainID : Int) (recordID : Int)
  deriving Repr, DecidableEq

/-- The remote API, abstracted as the decoded responses the transport
hands back.  `domains q` answers `GET /domains?domain=q`; `records i`
answers `GET /domains/{i}/dns`; `createResp i body` is the decoded body
answering a create POST.  The update POST's decoded response is ignored
by the source (client.go: "We don't actually get an result from the API")
and the delete response has no body, so neither needs a field. -/
structure Server where
  domains : String → List dsZone
  records : Int → List dsDNSRecord
  createResp : Int → dsDNSRecord → dsDNSRecord

/-- The provider's mutable fields (provider.go): the zone cache `zones`
and the record cache `knownRecords`, both Go maps keyed by the zone
string, modelled as association lists (first binding of a key wins;
`mapInsert` replaces in place).  The mutexes serialize every cache
access in the source; the embedding is sequential, so they vanish. -/
structure ProviderState where
  zones : List (String × dsZone) := []
  knownRecords : List (String × List dsDNSRecord) := []
  deriving Repr, DecidableEq

/-- Go map read `m[k]` (comma-ok form). -/
def mapLookup {α : Type} (m : List (String × α)) (k : String) : Option α :=
  match m.find? (fun p => p.1 == k) with
  | some p => some p.2
  | none => none

/-- Go map write `m[k] = v`: replace the binding if the key is present,
otherwise add it. -/
def mapInsert {α : Type} (m : List (String × α)) (k : String) (v : α) :
    List (String × α) :=
  match m with
  | [] => [(k, v)]
  | p :: rest => if p.1 == k then (k, v) :: rest else p :: mapInsert rest k v

/-- Result of one provider operation: the Go return value (errors are the
formatted error strings built in client.go), the provider state after the
call, and the requests issued to the transport, in order. -/
abbrev OpResult (α : Type) := Except String α × ProviderState × List Request

/-- Go `Provider.getDomainInfo` (client.go): return the cached zone for
this exact key if present; otherwise query the remote provider by the
dot-stripped domain name, demand exactly one result, and cache it under
the original un-normalized zone string. -/
def getDomainInfo (srv : Server) (s : ProviderState) (zone : String) :
    OpResult dsZone :=
  match mapLookup s.zones zone with
  | some z => (.ok z, s, [])
  | none =>
    let zs := srv.domains (removeFQDNTrailingDot zone)
    let log := [Request.getDomains (removeFQDNTrailingDot zone)]
    if zs.length = 1 then
      let z := zs.headD {}
      (.ok z, { s with zones := mapInsert s.zones zone z }, log)
    else
      let n := zs.length
      (.error s!"expected 1 zone, got {n} for {zone}", s, log)

/-- Go `Provider.getAllDomainRecords` (client.go): resolve the zone,
fetch the full record snapshot, and store it as the zone's cache entry
(replacing any previous snapshot). -/
def getAllDomainRecords (srv : Server) (s : ProviderState) (zone : String) :
    OpResult (List dsDNSRecord) :=
  match getDomainInfo srv s zone with
  | (.error e, s1, l1) => (.error e, s1, l1)
  | (.ok domain, s1, l1) =>
    let result := srv.records domain.ID
    (.ok result,
     { s1 with knownRecords := mapInsert s1.knownRecords zone result },
     l1 ++ [Request.getRecords domain.ID])

/-- The per-entry match criterion of the cache-lookup loop in
`getRecordFromKnownRecords` (client.go): the `if` / `else if` pair of the
loop body, which returns `rec` exactly when one of the two tests holds. -/
def matchKnown (record rec : dsDNSRecord) : Bool :=
  (record.ID == rec.ID && record.ID != 0 && rec.ID != 0) ||
  (record.Host == rec.Host && record.Data == rec.Data && rec.ID != 0)

/-- The loop of `getRecordFromKnownRecords`: first entry satisfying
`matchKnown`, else the zero struct. -/
def findKnown (record : dsDNSRecord) : List dsDNSRecord → dsDNSRecord
  | [] => {}
  | rec :: rest => if matchKnown record rec then rec else findKnown record rest

/-- Go `Provider.getRecordFromKnownRecords` (client.go). -/
def getRecordFromKnownRecords (s : ProviderState) (record : dsDNSRecord)
    (zone : String) : dsDNSRecord :=
  match mapLookup s.knownRecords zone with
  | some zoneRecords => findKnown record zoneRecords
  | none => {}

/-- The loop of `removeRecordFromKnownRecords` (client.go): zero the `ID`
of the first entry whose identifier equals the candidate's non-zero
identifier, in place; `none` when no entry matches. -/
def zeroFirstMatch (record : dsDNSRecord) :
    List dsDNSRecord → Option (List dsDNSRecord)
  | [] => none
  | rec :: rest =>
    if record.ID == rec.ID && record.ID != 0 then
      some ({ rec with ID := 0 } :: rest)
    else
      match zeroFirstMatch record rest with
      | some rest2 => some (rec :: rest2)
      | none => none

/-- Go `Provider.removeRecordFromKnownRecords` (client.go): soft
invalidation, returns whether an entry was tombstoned plus the new
state. -/
def removeRecordFromKnownRecords (s : ProviderState) (record : dsDNSRecord)
    (zone : String) : Bool × ProviderState :=
  match mapLookup s.knownRecords zone with
  | some zoneRecords =>
    match zeroFirstMatch record zoneRecords with
    | some newList =>
      (true, { s with knownRecords := mapInsert s.knownRecords zone newList })
    | none => (false, s)
  | none => (false, s)

/-- Go `Provider.getDNSRecord` (client.go): cached lookup, falling back
to one full zone refresh and a second lookup; an empty second lookup is
returned as the zero struct with no error. -/
def getDNSRecord (srv : Server) (s : ProviderState) (zone : String)
    (record : dsDNSRecord) : OpResult dsDNSRecord :=
  let dsrecord := getRecordFromKnownRecords s record zone
  if dsrecord ≠ ({} : dsDNSRecord) then
    (.ok dsrecord, s, [])
  else
    match getAllDomainRecords srv s zone with
    | (.error e, s1, l1) => (.error e, s1, l1)
    | (.ok _, s1, l1) => (.ok (getRecordFromKnownRecords s1 record zone), s1, l1)

/-- Go `Provider.deleteDNSRecord` (client.go): resolve the zone, resolve
the record (cache or refresh); an empty result is a silent no-op success;
otherwise issue the remote delete and soft-invalidate the cache entry. -/
def deleteDNSRecord (srv : Server) (s : ProviderState) (zone : String)
    (record : dsDNSRecord) : OpResult Unit :=
  match getDomainInfo srv s zone with
  | (.error e, s1, l1) => (.error e, s1, l1)
  | (.ok domain, s1, l1) =>
    match getDNSRecord srv s1 zone record with
    | (.error e, s2, l2) => (.error e, s2, l1 ++ l2)
    | (.ok dsrecord, s2, l2) =>
      if dsrecord = ({} : dsDNSRecord) then
        (.ok (), s2, l1 ++ l2)
      else
        let rm := removeRecordFromKnownRecords s2 dsrecord zone
        (.ok (), rm.2, l1 ++ l2 ++ [Request.deleteReq domain.ID dsrecord.ID])

/-- `int(defaultTtl.Seconds())` (client.go): the 120-second default TTL. -/
def defaultTtlSeconds : Int := 120

/-- Go `Provider.createDNSRecord` (client.go): resolve the zone,
normalize the record's host, default the request body's TTL to 120 when
zero, POST the create, and return the input record (normalized host)
with only the identifier copied from the response. -/
def createDNSRecord (srv : Server) (s : ProviderState) (zone : String)
    (record : dsDNSRecord) : OpResult dsDNSRecord :=
  match getDomainInfo srv s zone with
  | (.error e, s1, l1) => (.error e, s1, l1)
  | (.ok domain, s1, l1) =>
    let record := { record with Host := normalizeRecordName record.Host zone }
    let reqData := if record.TTL = 0 then { record with TTL := defaultTtlSeconds } else record
    let result := srv.createResp domain.ID reqData
    (.ok { record with ID := result.ID }, s1, l1 ++ [Request.postCreate domain.ID reqData])

/-- Go `Provider.updateDNSRecord` (client.go): resolve the zone, POST the
(TTL-defaulted) body to the record identifier's endpoint, discard the
response, then re-resolve the record through `getDNSRecord` ("We don't
actually get an result from the API so we query for update"). -/
def updateDNSRecord (srv : Server) (s : ProviderState) (zone : String)
    (record : dsDNSRecord) : OpResult dsDNSRecord :=
  match getDomainInfo srv s zone with
  | (.error e, s1, l1) => (.error e, s1, l1)
  | (.ok domain, s1, l1) =>
    let reqData := if record.TTL = 0 then { record with TTL := defaultTtlSeconds } else record
    let l2 := l1 ++ [Request.postUpdate domain.ID record.ID reqData]
    match getDNSRecord srv s1 zone record with
    | (.error e, s2, l3) => (.error e, s2, l2 ++ l3)
    | (.ok r, s2, l3) => (.ok r, s2, l2 ++ l3)

/-- Go `Provider.createOrUpdateDNSRecord` (client.go): create when the
identifier is zero, update otherwise. -/
def createOrUpdateDNSRecord (srv : Server) (s : ProviderState) (zone : String)
    (r : dsDNSRecord) : OpResult dsDNSRecord :=
  if r.ID = 0 then createDNSRecord srv s zone r
  else updateDNSRecord srv s zone r

/-- Go `strconv.ParseUint(s, 10, 16)` (models.go): a non-empty all-digit
decimal string whose value fits in 16 bits; anything else (empty string,
non-digit, out of range) is the error case, modelled as `none`.  Go's
ParseUint accepts no sign and, in base 10, no underscores. -/
def parseUint16 (s : String) : Option Nat :=
  if s.data ≠ [] ∧ s.data.all (fun c => c.isDigit) then
    let n := s.data.foldl (fun a c => a * 10 + (c.toNat - 48)) 0
    if n < 65536 then some n else none
  else none

/-- Go `strings.SplitN(s, ".", 2)` (models.go), which the source only
uses through `len(parts) < 2` and `parts[0]`, `parts[1]`: `none` when `s`
contains no dot (one part), otherwise the text before and after the
first dot. -/
def splitFirstDotAux : List Char → Option (List Char × List Char)
  | [] => none
  | c :: rest =>
    if c = '.' then some ([], rest)
    else
      match splitFirstDotAux rest with
      | some (a, b) => some (c :: a, b)
      | none => none

/-- String-level wrapper for `splitFirstDotAux`. -/
def splitFirstDot (s : String) : Option (String × String) :=
  match splitFirstDotAux s.data with
  | some (a, b) => some (String.mk a, String.mk b)
  | none => none

/-- Go `strings.TrimPrefix(s, "_")` as used in models.go: drop one
leading underscore if present. -/
def stripUnderscore (s : String) : String :=
  match s.data with
  | '_' :: rest => String.mk rest
  | _ => s

/-- One nanosecond count per second: Go `time.Second`. -/
def nsPerSecond : Int := 1000000000

/-- Go `int(d.Seconds())` for a `time.Duration` `d` in nanoseconds.
Integer division models the float truncation; the two agree on every
nonnegative duration and on every whole-second duration, which covers
every TTL the source produces (`time.Duration(r.TTL) * time.Second`). -/
def durSeconds (d : Int) : Int := d / nsPerSecond

/-- Modelled from the spec: the generic record model of the external
libdns library (not part of this repository's sources).  Spec section 3:
the model is "polymorphic over record kind", and the source only
distinguishes the mail-exchange and service variants plus the generic
fallback; each variant's fields follow the spec's field lists
(mail-exchange: preference; service: priority, weight, port, target;
every variant: name, time-to-live).  `TTL` is a duration in nanoseconds
(Go `time.Duration`); `Preference`, `Priority`, `Weight`, `Port` are
16-bit values, carried as `Nat`. -/
structure libdnsMX where
  Name : String := ""
  TTL : Int := 0
  Preference : Nat := 0
  Target : String := ""
  deriving Repr, DecidableEq

/-- Modelled from the spec: the service (SRV) variant of the generic
record model; see `libdnsMX`. -/
structure libdnsSRV where
  Service : String := ""
  Transport : String := ""
  Name : String := ""
  TTL : Int := 0
  Priority : Nat := 0
  Weight : Nat := 0
  Port : Nat := 0
  Target : String := ""
  deriving Repr, DecidableEq

/-- Modelled from the spec: the generic flattened record (libdns `RR`),
spec section 3: "a canonical flattened view with fields {name: string,
type: string, data: string, time-to-live: duration}".  `Typ` stands for
the Go field `Type` (a reserved word in Lean). -/
structure libdnsRR where
  Name : String := ""
  TTL : Int := 0
  Typ : String := ""
  Data : String := ""
  deriving Repr, DecidableEq

/-- Modelled from the spec: the polymorphic generic record (libdns
`Record` interface) restricted to the kinds the source handles
specially plus the generic fallback, per spec sections 1 and 3. -/
inductive LibdnsRecord where
  | mx (rec : libdnsMX)
  | srv (rec : libdnsSRV)
  | rr (rec : libdnsRR)
  deriving Repr, DecidableEq

/-- Modelled from the spec: the `RR()` flattening of the generic record
model (libdns, not under this repository's sources).  Spec section 3
says the subtype semantic fields (mail-exchange preference; service
priority/weight/port/target) are "not present in the flattened view",
and section 4.1's forward mapping copies name, time-to-live, type and
data verbatim with "target overriding data" only for the service kind —
so the mail-exchange flattened data is its target, while the service
flattened data is left unspecified by the spec and is set to "" here
(the source overrides it with the target on the way in and never reads
it on the way out). -/
def LibdnsRecord.RR : LibdnsRecord → libdnsRR
  | .mx rec => { Name := rec.Name, TTL := rec.TTL, Typ := "MX", Data := rec.Target }
  | .srv rec => { Name := rec.Name, TTL := rec.TTL, Typ := "SRV", Data := "" }
  | .rr rec => rec

/-- Modelled from the spec: libdns `RR.Parse` as reached from the
source's default branch (models.go), spec section 4.1: "All other types
fall back to a generic flattened record with no subtype parsing." -/
def libdnsRRParse (rr : libdnsRR) : Except String LibdnsRecord :=
  .ok (.rr rr)

/-- Go `dsDNSRecord.libdnsRecord` (models.go): the reverse mapping from
the provider representation to the generic record model.  Error strings
carry the offending raw value as in the source (the wrapped strconv
error text is abbreviated). -/
def dsDNSRecord.libdnsRecord (r : dsDNSRecord) : Except String LibdnsRecord :=
  if r.Typ = "MX" then
    match parseUint16 r.Priority with
    | none =>
      let p := r.Priority
      .error s!"invalid priority {p}"
    | some priority =>
      .ok (.mx { Name := r.Host, TTL := r.TTL * nsPerSecond,
                 Preference := priority, Target := r.Data })
  else if r.Typ = "SRV" then
    match parseUint16 r.Priority with
    | none =>
      let p := r.Priority
      .error s!"invalid priority {p}"
    | some priority =>
      match parseUint16 r.Weight with
      | none =>
        let w := r.Weight
        .error s!"invalid weight {w}"
      | some weight =>
        match parseUint16 r.Port with
        | none =>
          let pt := r.Port
          .error s!"invalid port {pt}"
        | some port =>
          match splitFirstDot r.Host with
          | none =>
            let h := r.Host
            .error s!"name {h} does not contain enough fields"
          | some (p0, p1) =>
            .ok (.srv { Service := stripUnderscore p0,
                        Transport := stripUnderscore p1,
                        Name := r.Host,
                        TTL := r.TTL * nsPerSecond,
                        Priority := priority,
                        Weight := weight,
                        Port := port,
                        Target := r.Data })
  else
    libdnsRRParse { Name := r.Host, TTL := r.TTL * nsPerSecond,
                    Typ := r.Typ, Data := r.Data }

/-- Go `libdnsRecordTodsDNSRecord` (models.go): the forward mapping from
the generic record model to the provider representation — flatten via
`RR()`, then encode the subtype fields as string attributes (service
target overriding data). -/
def libdnsRecordTodsDNSRecord (r : LibdnsRecord) : Except String dsDNSRecord :=
  let rr := r.RR
  let dsRecord : dsDNSRecord :=
    { Host := rr.Name, TTL := durSeconds rr.TTL, Typ := rr.Typ, Data := rr.Data }
  match r with
  | .mx rec => .ok { dsRecord with Priority := toString rec.Preference }
  | .srv rec => .ok { dsRecord with
      Priority := toString rec.Priority,
      Port := toString rec.Port,
      Weight := toString rec.Weight,
      Data := rec.Target }
  | .rr _ => .ok dsRecord

/-- The request body that `createDNSRecord` sends: the input record with
its host normalized against the zone and, when the TTL is zero, the
120-second default substituted (client.go, `reqData`). -/
def createReqBody (zone : String) (record : dsDNSRecord) : dsDNSRecord :=
  let rec2 := { record with Host := normalizeRecordName record.Host zone }
  if rec2.TTL = 0 then { rec2 with TTL := defaultTtlSeconds } else rec2

/-- The request body that `updateDNSRecord` sends: the input record with,
when the TTL is zero, the 120-second default substituted (client.go,
`reqData`). -/
def updateReqBody (record : dsDNSRecord) : dsDNSRecord :=
  if record.TTL = 0 then { record with TTL := defaultTtlSeconds } else record

/-- Decimal digit string of a natural number, most significant digit
first: the list of characters `Nat.repr` produces. -/
def natDigits (n : Nat) : List Char :=
  if _h : n < 10 then [Nat.digitChar n]
  else natDigits (n / 10) ++ [Nat.digitChar (n % 10)]
  decreasing_by exact Nat.div_lt_self (by omega) (by omega)

/-- The accumulator of `parseUint16`, as a standalone function. -/
def valDigits (l : List Char) : Nat :=
  l.foldl (fun a c => a * 10 + (c.toNat - 48)) 0

theorem toDigitsCore_eq_natDigits :
    ∀ (fuel n : Nat) (ds : List Char), n < fuel →
      Nat.toDigitsCore 10 fuel n ds = natDigits n ++ ds := by
  intro fuel
  induction fuel with
  | zero => intro n ds h; omega
  | succ fuel ih =>
    intro n ds h
    show (if n / 10 = 0 then Nat.digitChar (n % 10) :: ds
          else Nat.toDigitsCore 10 fuel (n / 10) (Nat.digitChar (n % 10) :: ds)) =
         natDigits n ++ ds
    by_cases h10 : n / 10 = 0
    · have hn : n < 10 := by omega
      rw [if_pos h10, natDigits, dif_pos hn, Nat.mod_eq_of_lt hn]
      rfl
    · have hge : ¬ n < 10 := by
        intro hc
        exact h10 (Nat.div_eq_of_lt hc)
      have hlt : n / 10 < fuel := by
        have : n / 10 < n := Nat.div_lt_self (by omega) (by omega)
        omega
      rw [if_neg h10, ih (n / 10) _ hlt]
      conv_rhs => rw [natDigits]
      rw [dif_neg hge, List.append_assoc]
      rfl

theorem toString_nat_data (n : Nat) : (toString n).data = natDigits n := by
  show (Nat.toDigitsCore 10 (n + 1) n []).asString.data = natDigits n
  rw [toDigitsCore_eq_natDigits (n + 1) n [] (Nat.lt_succ_self n)]
  simp [List.asString]

theorem digitChar_toNat_of_lt {m : Nat} (h : m < 10) :
    (Nat.digitChar m).toNat - 48 = m := by
  have : ∀ m' : Nat, m' < 10 → (Nat.digitChar m').toNat - 48 = m' := by decide
  exact this m h

theorem digitChar_isDigit_of_lt {m : Nat} (h : m < 10) :
    (Nat.digitChar m).isDigit = true := by
  have : ∀ m' : Nat, m' < 10 → (Nat.digitChar m').isDigit = true := by decide
  exact this m h

theorem valDigits_natDigits (n : Nat) : valDigits (natDigits n) = n := by
  induction n using Nat.strong_induction_on with
  | _ n ih =>
    rw [natDigits]
    by_cases h : n < 10
    · rw [dif_pos h]
      show 0 * 10 + ((Nat.digitChar n).toNat - 48) = n
      rw [digitChar_toNat_of_lt h]
      omega
    · rw [dif_neg h]
      have hlt : n / 10 < n := Nat.div_lt_self (by omega) (by omega)
      have hv := ih (n / 10) hlt
      show List.foldl (fun a c => a * 10 + (c.toNat - 48)) 0
        (natDigits (n / 10) ++ [Nat.digitChar (n % 10)]) = n
      rw [List.foldl_append]
      show valDigits (natDigits (n / 10)) * 10 + ((Nat.digitChar (n % 10)).toNat - 48) = n
      rw [hv, digitChar_toNat_of_lt (Nat.mod_lt n (by omega))]
      omega

theorem natDigits_ne_nil (n : Nat) : natDigits n ≠ [] := by
  rw [natDigits]
  by_cases h : n < 10
  · rw [dif_pos h]; simp
  · rw [dif_neg h]; simp

theorem natDigits_all_digits (n : Nat) :
    (natDigits n).all (fun c => c.isDigit) = true := by
  induction n using Nat.strong_induction_on with
  | _ n ih =>
    rw [natDigits]
    by_cases h : n < 10
    · rw [dif_pos h]
      simp [digitChar_isDigit_of_lt h]
    · rw [dif_neg h]
      have hlt : n / 10 < n := Nat.div_lt_self (by omega) (by omega)
      have hv := ih (n / 10) hlt
      simp only [List.all_append, Bool.and_eq_true, hv, List.all_cons, List.all_nil]
      simp [digitChar_isDigit_of_lt (Nat.mod_lt n (by omega))]

theorem parseUint16_toString (n : Nat) (h : n < 65536) :
    parseUint16 (toString n) = some n := by
  unfold parseUint16
  rw [toString_nat_data]
  rw [if_pos ⟨natDigits_ne_nil n, natDigits_all_digits n⟩]
  show (if valDigits (natDigits n) < 65536 then some (valDigits (natDigits n)) else none) = some n
  rw [valDigits_natDigits, if_pos h]

theorem mapLookup_mapInsert_self {α : Type} (m : List (String × α)) (k : String)
    (v : α) : mapLookup (mapInsert m k v) k = some v := by
  induction m with
  | nil => simp [mapInsert, mapLookup, List.find?]
  | cons p rest ih =>
    by_cases h : p.1 == k
    · simp [mapInsert, h, mapLookup, List.find?]
    · simp only [mapInsert, h, Bool.false_eq_true, if_false]
      simpa [mapLookup, List.find?, h] using ih

theorem getDomainInfo_ok_idem (srv : Server) (s s1 : ProviderState) (zone : String)
    (dom : dsZone) (l1 : List Request)
    (h : getDomainInfo srv s zone = (.ok dom, s1, l1)) :
    getDomainInfo srv s1 zone = (.ok dom, s1, []) := by
  unfold getDomainInfo at h ⊢
  cases hm : mapLookup s.zones zone with
  | some z =>
    simp only [hm, Prod.mk.injEq, Except.ok.injEq] at h
    obtain ⟨rfl, rfl, rfl⟩ := h
    simp [hm]
  | none =>
    simp only [hm] at h
    by_cases hl : (srv.domains (removeFQDNTrailingDot zone)).length = 1
    · simp only [if_pos hl, Prod.mk.injEq, Except.ok.injEq] at h
      obtain ⟨h1, h2, h3⟩ := h
      subst h1
      subst h2
      simp [mapLookup_mapInsert_self]
    · simp only [if_neg hl, Prod.mk.injEq] at h
      exact absurd h.1 (by simp)

theorem getDomainInfo_log (srv : Server) (s : ProviderState) (zone : String) :
    (getDomainInfo srv s zone).2.2 = [] ∨
    (getDomainInfo srv s zone).2.2 =
      [Request.getDomains (removeFQDNTrailingDot zone)] := by
  unfold getDomainInfo
  cases hm : mapLookup s.zones zone with
  | some z => left; rfl
  | none =>
    right
    by_cases hl : (srv.domains (removeFQDNTrailingDot zone)).length = 1
    · simp [if_pos hl]
    · simp [if_neg hl]

theorem getRecordFromKnownRecords_insert (s : ProviderState) (zone : String)
    (rs : List dsDNSRecord) (record : dsDNSRecord) :
    getRecordFromKnownRecords
      { s with knownRecords := mapInsert s.knownRecords zone rs } record zone =
    findKnown record rs := by
  unfold getRecordFromKnownRecords
  simp [mapLookup_mapInsert_self]

theorem getAllDomainRecords_ok (srv : Server) (s s1 : ProviderState) (zone : String)
    (dom : dsZone) (l1 : List Request)
    (h : getDomainInfo srv s zone = (.ok dom, s1, l1)) :
    getAllDomainRecords srv s zone =
      (.ok (srv.records dom.ID),
       { s1 with knownRecords := mapInsert s1.knownRecords zone (srv.records dom.ID) },
       l1 ++ [Request.getRecords dom.ID]) := by
  unfold getAllDomainRecords
  rw [h]

theorem getDNSRecord_miss (srv : Server) (s s1 : ProviderState) (zone : String)
    (record : dsDNSRecord) (dom : dsZone) (l1 : List Request)
    (hdom : getDomainInfo srv s zone = (.ok dom, s1, l1))
    (hmiss : getRecordFromKnownRecords s record zone = ({} : dsDNSRecord)) :
    getDNSRecord srv s zone record =
      (.ok (findKnown record (srv.records dom.ID)),
       { s1 with knownRecords := mapInsert s1.knownRecords zone (srv.records dom.ID) },
       l1 ++ [Request.getRecords dom.ID]) := by
  unfold getDNSRecord
  rw [hmiss, if_neg (by simp)]
  simp only [getAllDomainRecords_ok srv s s1 zone dom l1 hdom]
  rw [getRecordFromKnownRecords_insert]

theorem getDNSRecord_hit (srv : Server) (s : ProviderState) (zone : String)
    (record : dsDNSRecord)
    (hhit : getRecordFromKnownRecords s record zone ≠ ({} : dsDNSRecord)) :
    getDNSRecord srv s zone record =
      (.ok (getRecordFromKnownRecords s record zone), s, []) := by
  unfold getDNSRecord
  rw [if_pos hhit]

theorem matchKnown_true_id_ne_zero (record rec : dsDNSRecord)
    (h : matchKnown record rec = true) : rec.ID ≠ 0 := by
  unfold matchKnown at h
  simp only [Bool.or_eq_true, Bool.and_eq_true, bne_iff_ne, beq_iff_eq, ne_eq] at h
  rcases h with ⟨-, h2⟩ | ⟨-, h2⟩ <;> exact h2

theorem findKnown_empty_or_id_ne_zero (record : dsDNSRecord)
    (l : List dsDNSRecord) :
    findKnown record l = ({} : dsDNSRecord) ∨ (findKnown record l).ID ≠ 0 := by
  induction l with
  | nil => left; rfl
  | cons rec rest ih =>
    by_cases h : matchKnown record rec = true
    · right
      unfold findKnown
      rw [if_pos h]
      exact matchKnown_true_id_ne_zero record rec h
    · unfold findKnown
      rw [if_neg h]
      exact ih

theorem getRecordFromKnownRecords_empty_or_id_ne_zero (s : ProviderState)
    (record : dsDNSRecord) (zone : String) :
    getRecordFromKnownRecords s record zone = ({} : dsDNSRecord) ∨
    (getRecordFromKnownRecords s record zone).ID ≠ 0 := by
  unfold getRecordFromKnownRecords
  cases mapLookup s.knownRecords zone with
  | some zoneRecords => exact findKnown_empty_or_id_ne_zero record zoneRecords
  | none => left; rfl

theorem findKnown_append_first (cand e : dsDNSRecord) (l1 l2 : List dsDNSRecord)
    (hbefore : ∀ r ∈ l1, matchKnown cand r = false)
    (he : matchKnown cand e = true) :
    findKnown cand (l1 ++ e :: l2) = e := by
  induction l1 with
  | nil =>
    unfold findKnown
    rw [List.nil_append]
    simp only [he, if_true]
  | cons r rest ih =>
    rw [List.cons_append]
    unfold findKnown
    rw [if_neg (by simp [hbefore r (by simp)])]
    exact ih (fun x hx => hbefore x (by simp [hx]))

theorem zeroFirstMatch_spec (record : dsDNSRecord) (old newList : List dsDNSRecord)
    (h : zeroFirstMatch record old = some newList) :
    record.ID ≠ 0 ∧
    ∃ i, i < old.length ∧ (old.getD i {}).ID = record.ID ∧
      newList = old.set i { old.getD i {} with ID := 0 } := by
  induction old generalizing newList with
  | nil => simp [zeroFirstMatch] at h
  | cons rec rest ih =>
    unfold zeroFirstMatch at h
    by_cases hm : (record.ID == rec.ID && record.ID != 0) = true
    · rw [if_pos hm] at h
      simp only [Bool.and_eq_true, beq_iff_eq, bne_iff_ne, ne_eq] at hm
      obtain ⟨hid, hnz⟩ := hm
      refine ⟨hnz, 0, by simp, by simp [hid.symm], ?_⟩
      injection h with h'
      rw [← h']
      simp [List.set]
    · rw [if_neg hm] at h
      cases hrec : zeroFirstMatch record rest with
      | none => rw [hrec] at h; exact absurd h (by simp)
      | some rest2 =>
        rw [hrec] at h
        obtain ⟨hnz, i, hi, hid, hset⟩ := ih rest2 hrec
        refine ⟨hnz, i + 1, by simpa using hi, by simpa using hid, ?_⟩
        injection h with h'
        rw [← h', hset]
        simp [List.set]

theorem singleton_suffix_append {α : Type} (a : α) (m l : List α) (hl : l ≠ [])
    (h : [a] <:+ m ++ l) : [a] <:+ l := by
  induction m with
  | nil => exact h
  | cons b m ih =>
    rw [List.cons_append] at h
    rcases List.suffix_cons_iff.mp h with h1 | h2
    · have hmn : m ++ l = [] := by
        injection h1 with h1a h1b
        exact h1b.symm
      exact absurd (List.append_eq_nil.mp hmn).2 hl
    · exact ih h2

theorem trimSuffix_of_not_suffix (s t : String) (h : ¬ t.data <:+ s.data) :
    trimSuffix s t = s := by
  unfold trimSuffix
  rw [if_neg h]

theorem string_mk_data (s : String) : String.mk s.data = s := rfl

theorem trimSuffix_append_self (pre z : String) :
    trimSuffix (pre ++ z) z = pre := by
  unfold trimSuffix
  rw [if_pos (by rw [String.data_append]; exact List.suffix_append pre.data z.data)]
  rw [String.data_append, List.length_append, Nat.add_sub_cancel, List.take_left]

theorem data_ne_nil_of_ne_empty (s : String) (h : s ≠ "") : s.data ≠ [] := by
  intro hc
  exact h (by rw [← string_mk_data s, hc])

/-- C5: name canonicalization is invariant across input form — the three
quoted calls all yield "123.test" — and `normalizeRecordName` is exactly
the spec's rule: strip the trailing dot from name and zone, strip the
zone as a suffix, substitute "@" for an empty remainder, strip any
resulting trailing dot. -/
theorem c5_theorem :
    normalizeRecordName "123.test.example.com" "example.com." = "123.test" ∧
    normalizeRecordName "123.test.example.com." "example.com" = "123.test" ∧
    normalizeRecordName "123.test" "example.com" = "123.test" ∧
    ∀ name zone : String,
      normalizeRecordName name zone =
        (let m := trimSuffix (trimSuffix name ".") (trimSuffix zone ".")
         trimSuffix (if m = "" then "@" else m) ".") :=
  ⟨by decide, by decide, by decide, fun name zone => rfl⟩

/-- C9: zone-suffix stripping is purely textual, with no label-boundary
check: whenever the name is the zone preceded by any non-empty text
(no separating dot required, no trailing dots involved),
`normalizeRecordName` strips the zone characters and returns the textual
remainder — e.g. name "notexample.com" against zone "example.com" gives
"not". -/
theorem c9_theorem (pre zone : String) (hpre : pre ≠ "")
    (hpredot : ¬ ['.'] <:+ pre.data) (hzone : zone ≠ "")
    (hzonedot : ¬ ['.'] <:+ zone.data) :
    normalizeRecordName (pre ++ zone) zone = pre := by
  have hdz : ("." : String).data = ['.'] := rfl
  have happ : ¬ ("." : String).data <:+ (pre ++ zone).data := by
    rw [hdz, String.data_append]
    intro hc
    exact hzonedot
      (singleton_suffix_append '.' pre.data zone.data
        (data_ne_nil_of_ne_empty zone hzone) hc)
  simp only [normalizeRecordName, removeFQDNTrailingDot]
  rw [trimSuffix_of_not_suffix (pre ++ zone) "." happ,
    trimSuffix_of_not_suffix zone "." (by rw [hdz]; exact hzonedot),
    trimSuffix_append_self, if_neg hpre,
    trimSuffix_of_not_suffix pre "." (by rw [hdz]; exact hpredot)]

/-- C9 witness: the concrete instance from the claim, through
`c9_theorem`. -/
theorem c9_witness : normalizeRecordName ("not" ++ "example.com") "example.com" = "not" :=
  c9_theorem "not" "example.com" (by decide) (by decide) (by decide) (by decide)

/-- C2 counterexample: a cache state where the entry sharing only
host+data (stored identifier 7, non-zero) precedes the entry sharing
only the identifier (5): the lookup returns the host+data entry, not the
identifier match, so the claimed position independence fails. -/
theorem c2_counterexample :
    getRecordFromKnownRecords
      { knownRecords := [("example.com",
          [{ ID := 7, Host := "test1", Data := "d" },
           { ID := 5, Host := "other", Data := "e" }])] }
      { ID := 5, Host := "test1", Data := "d" } "example.com" =
      { ID := 7, Host := "test1", Data := "d" } ∧
    ({ ID := 7, Host := "test1", Data := "d" } : dsDNSRecord) ≠
      { ID := 5, Host := "other", Data := "e" } ∧
    (5 : Int) ≠ 7 ∧ (5 : Int) ≠ 0 :=
  ⟨rfl, by decide, by decide, by decide⟩

/-- C2 (amended): the cache lookup returns the first entry matching
either criterion; the identifier-matching entry is returned exactly when
every entry placed before it in the slice matches neither by identifier
nor by host+data — not regardless of position. -/
theorem c2_theorem (s : ProviderState) (zone : String) (cand e : dsDNSRecord)
    (l1 l2 : List dsDNSRecord)
    (hmap : mapLookup s.knownRecords zone = some (l1 ++ e :: l2))
    (hid : e.ID = cand.ID) (hnz : cand.ID ≠ 0)
    (hbefore : ∀ r ∈ l1, matchKnown cand r = false) :
    getRecordFromKnownRecords s cand zone = e := by
  unfold getRecordFromKnownRecords
  rw [hmap]
  exact findKnown_append_first cand e l1 l2 hbefore
    (by simp [matchKnown, hid, hnz])

/-- C2 witness: with the identifier-matching entry first, the lookup
returns it, through `c2_theorem`. -/
theorem c2_witness :
    getRecordFromKnownRecords
      { knownRecords := [("example.com",
          [{ ID := 5, Host := "other", Data := "e" },
           { ID := 7, Host := "test1", Data := "d" }])] }
      { ID := 5, Host := "test1", Data := "d" } "example.com" =
      { ID := 5, Host := "other", Data := "e" } :=
  c2_theorem _ "example.com" _ { ID := 5, Host := "other", Data := "e" }
    [] [{ ID := 7, Host := "test1", Data := "d" }]
    (by rfl) (by decide) (by decide) (by simp)

/-- C4 counterexample: the reverse mapping of the claim's SRV provider
record yields Transport "tcp.example.com" (everything after the first
dot, underscore-stripped), not the claimed "tcp". -/
theorem c4_counterexample :
    dsDNSRecord.libdnsRecord
      { Typ := "SRV", Host := "_sip._tcp.example.com", Data := "t.example.com",
        TTL := 120, Priority := "10", Weight := "5", Port := "5060" } =
      .ok (.srv { Service := "sip", Transport := "tcp.example.com",
                  Name := "_sip._tcp.example.com", TTL := 120 * nsPerSecond,
                  Priority := 10, Weight := 5, Port := 5060,
                  Target := "t.example.com" }) ∧
    ("tcp.example.com" : String) ≠ "tcp" :=
  ⟨rfl, by decide⟩

/-- C4 (amended): for a provider record of type SRV whose priority,
weight and port parse as 16-bit decimals, the service and transport
labels are derived from the host by splitting on the first "." and
stripping one leading underscore from each part (so host
"_sip._tcp.example.com" yields Service "sip" and Transport
"tcp.example.com", with the record's Name kept as the full host), and a
host without at least two dot-separated components is a hard error. -/
theorem c4_theorem (r : dsDNSRecord) (hT : r.Typ = "SRV") (p w pt : Nat)
    (hp : parseUint16 r.Priority = some p)
    (hw : parseUint16 r.Weight = some w)
    (hpt : parseUint16 r.Port = some pt) :
    (∀ p0 p1 : String, splitFirstDot r.Host = some (p0, p1) →
      dsDNSRecord.libdnsRecord r =
        .ok (.srv { Service := stripUnderscore p0,
                    Transport := stripUnderscore p1,
                    Name := r.Host, TTL := r.TTL * nsPerSecond,
                    Priority := p, Weight := w, Port := pt,
                    Target := r.Data })) ∧
    (splitFirstDot r.Host = none →
      ∃ e, dsDNSRecord.libdnsRecord r = .error e) := by
  constructor
  · intro p0 p1 hsplit
    unfold dsDNSRecord.libdnsRecord
    rw [hT, if_neg (by decide), if_pos rfl, hp, hw, hpt, hsplit]
  · intro hsplit
    unfold dsDNSRecord.libdnsRecord
    rw [hT, if_neg (by decide), if_pos rfl, hp, hw, hpt, hsplit]
    exact ⟨_, rfl⟩

/-- C4 witness: the claim's scenario (corrected Transport) and the
malformed-host error, through `c4_theorem`. -/
theorem c4_witness :
    dsDNSRecord.libdnsRecord
      { Typ := "SRV", Host := "_sip._tcp.example.com", Data := "t2.example.com",
        TTL := 300, Priority := "10", Weight := "5", Port := "5060" } =
      .ok (.srv { Service := "sip", Transport := "tcp.example.com",
                  Name := "_sip._tcp.example.com", TTL := 300 * nsPerSecond,
                  Priority := 10, Weight := 5, Port := 5060,
                  Target := "t2.example.com" }) ∧
    (∃ e, dsDNSRecord.libdnsRecord
      { Typ := "SRV", Host := "nodots", Data := "x",
        TTL := 300, Priority := "10", Weight := "5", Port := "5060" } =
      .error e) :=
  ⟨(c4_theorem
      { Typ := "SRV", Host := "_sip._tcp.example.com", Data := "t2.example.com",
        TTL := 300, Priority := "10", Weight := "5", Port := "5060" }
      rfl 10 5 5060 rfl rfl rfl).1 "_sip" "_tcp.example.com" rfl,
   (c4_theorem
      { Typ := "SRV", Host := "nodots", Data := "x",
        TTL := 300, Priority := "10", Weight := "5", Port := "5060" }
      rfl 10 5 5060 rfl rfl rfl).2 rfl⟩

/-- C3 counterexample: the round trip is not the identity on service
records — converting the service record (sip, tcp, example.com, ...) to
the provider representation and back yields Service "example" and
Transport "com" (the host is split on its first dot), not the original
record. -/
theorem c3_counterexample :
    libdnsRecordTodsDNSRecord
      (.srv { Service := "sip", Transport := "tcp", Name := "example.com",
              TTL := 120 * nsPerSecond, Priority := 10, Weight := 5,
              Port := 5060, Target := "t.example.com" }) =
      .ok { Host := "example.com", TTL := 120, Typ := "SRV",
            Data := "t.example.com", Priority := "10", Weight := "5",
            Port := "5060" } ∧
    dsDNSRecord.libdnsRecord
      { Host := "example.com", TTL := 120, Typ := "SRV",
        Data := "t.example.com", Priority := "10", Weight := "5",
        Port := "5060" } =
      .ok (.srv { Service := "example", Transport := "com",
                  Name := "example.com", TTL := 120 * nsPerSecond,
                  Priority := 10, Weight := 5, Port := 5060,
                  Target := "t.example.com" }) ∧
    (LibdnsRecord.srv
      { Service := "example", Transport := "com",
        Name := "example.com", TTL := 120 * nsPerSecond,
        Priority := 10, Weight := 5, Port := 5060,
        Target := "t.example.com" } : LibdnsRecord) ≠
      .srv { Service := "sip", Transport := "tcp", Name := "example.com",
             TTL := 120 * nsPerSecond, Priority := 10, Weight := 5,
             Port := 5060, Target := "t.example.com" } :=
  ⟨rfl, rfl, by decide⟩

/-- C3 (amended): the conversion round trip is the identity on
well-formed mail-exchange records (16-bit preference, whole-second TTL)
and on well-formed generic-fallback records (type neither "MX" nor
"SRV", whole-second TTL), but not on service records, whose
service/transport labels are not recovered from the flattened host. -/
theorem c3_theorem (r : LibdnsRecord)
    (hwf : match r with
      | .mx rec => rec.Preference < 65536 ∧ nsPerSecond ∣ rec.TTL
      | .srv _ => False
      | .rr rec => rec.Typ ≠ "MX" ∧ rec.Typ ≠ "SRV" ∧ nsPerSecond ∣ rec.TTL) :
    ∀ ds : dsDNSRecord, libdnsRecordTodsDNSRecord r = .ok ds →
      dsDNSRecord.libdnsRecord ds = .ok r := by
  intro ds hds
  cases r with
  | mx rec =>
    obtain ⟨hp, ht⟩ := hwf
    obtain ⟨nm, ttl, pref, tgt⟩ := rec
    simp only [libdnsRecordTodsDNSRecord, LibdnsRecord.RR, Except.ok.injEq] at hds
    subst hds
    unfold dsDNSRecord.libdnsRecord
    rw [if_pos rfl]
    simp only
    rw [parseUint16_toString pref hp]
    simp only [durSeconds, Except.ok.injEq, LibdnsRecord.mx.injEq]
    congr 1
    exact Int.ediv_mul_cancel ht
  | srv rec => exact absurd hwf (by simp)
  | rr rec =>
    obtain ⟨h1, h2, ht⟩ := hwf
    obtain ⟨nm, ttl, ty, da⟩ := rec
    simp only at h1 h2
    simp only [libdnsRecordTodsDNSRecord, LibdnsRecord.RR, Except.ok.injEq] at hds
    subst hds
    unfold dsDNSRecord.libdnsRecord
    rw [if_neg (by simpa using h1), if_neg (by simpa using h2)]
    unfold libdnsRRParse
    simp only [durSeconds, Except.ok.injEq, LibdnsRecord.rr.injEq]
    congr 1
    exact Int.ediv_mul_cancel ht

/-- C3 witness: a mail-exchange record round-trips, through
`c3_theorem`. -/
theorem c3_witness :
    dsDNSRecord.libdnsRecord
      { Host := "mail", TTL := 120, Typ := "MX", Data := "mx.example.com",
        Priority := "10" } =
      .ok (.mx { Name := "mail", TTL := 120 * nsPerSecond, Preference := 10,
                 Target := "mx.example.com" }) :=
  c3_theorem
    (.mx { Name := "mail", TTL := 120 * nsPerSecond, Preference := 10,
           Target := "mx.example.com" })
    ⟨by decide, ⟨120, by norm_num [nsPerSecond]⟩⟩
    _ rfl

/-- C1 counterexample: update with a stale cache — the zone's cache still
holds the pre-update record under the same identifier 5 — returns that
stale record (Data "old"), not the new data value, even though the
server's post-update snapshot already carries "new"; the fresh identity
lookup is cache-or-refresh and the cache hit wins. -/
theorem c1_counterexample :
    (updateDNSRecord
      { domains := fun _ => [{ Name := "example.com", ID := 99 }],
        records := fun _ =>
          [{ ID := 5, Host := "test1", Data := "new", Typ := "TXT", TTL := 120 }],
        createResp := fun _ r => r }
      { zones := [("example.com", { Name := "example.com", ID := 99 })],
        knownRecords := [("example.com",
          [{ ID := 5, Host := "test1", Data := "old", Typ := "TXT", TTL := 120 }])] }
      "example.com"
      { ID := 5, Host := "test1", Data := "new", Typ := "TXT", TTL := 120 }).1 =
      .ok { ID := 5, Host := "test1", Data := "old", Typ := "TXT", TTL := 120 } ∧
    ({ ID := 5, Host := "test1", Data := "old", Typ := "TXT", TTL := 120 } :
        dsDNSRecord).Data ≠ "new" :=
  ⟨rfl, by decide⟩

/-- C1 (amended): update posts the (TTL-defaulted) field values to the
existing identifier's endpoint and then re-resolves the record
cache-or-refresh: when the zone's cache holds no entry matching the
input, the returned record is the match found in the freshly fetched
zone snapshot (the authoritative post-update state); when the cache
still holds a matching entry — such as the pre-update record, which
shares the identifier — that possibly stale cached entry is returned
instead, so the result reflects the new data value only in the former
case. -/
theorem c1_theorem (srv : Server) (s : ProviderState) (zone : String)
    (record : dsDNSRecord) (dom : dsZone) (s1 : ProviderState)
    (l1 : List Request)
    (hdom : getDomainInfo srv s zone = (.ok dom, s1, l1)) :
    (getRecordFromKnownRecords s1 record zone = ({} : dsDNSRecord) →
      updateDNSRecord srv s zone record =
        (.ok (findKnown record (srv.records dom.ID)),
         { s1 with knownRecords := mapInsert s1.knownRecords zone (srv.records dom.ID) },
         l1 ++ [Request.postUpdate dom.ID record.ID (updateReqBody record),
                Request.getRecords dom.ID])) ∧
    (getRecordFromKnownRecords s1 record zone ≠ ({} : dsDNSRecord) →
      updateDNSRecord srv s zone record =
        (.ok (getRecordFromKnownRecords s1 record zone), s1,
         l1 ++ [Request.postUpdate dom.ID record.ID (updateReqBody record)])) := by
  have hidem := getDomainInfo_ok_idem srv s s1 zone dom l1 hdom
  constructor
  · intro hmiss
    unfold updateDNSRecord
    simp only [hdom, getDNSRecord_miss srv s1 s1 zone record dom [] hidem hmiss]
    simp [updateReqBody]
  · intro hhit
    unfold updateDNSRecord
    simp only [hdom, getDNSRecord_hit srv s1 zone record hhit]
    simp [updateReqBody]

/-- C1 witness: with an empty record cache the update re-fetches the
snapshot and returns the post-update record, through `c1_theorem`. -/
theorem c1_witness :
    updateDNSRecord
      { domains := fun _ => [{ Name := "example.com", ID := 99 }],
        records := fun _ =>
          [{ ID := 5, Host := "test1", Data := "new", Typ := "TXT", TTL := 120 }],
        createResp := fun _ r => r }
      { zones := [("example.com", { Name := "example.com", ID := 99 })] }
      "example.com"
      { ID := 5, Host := "test1", Data := "new", Typ := "TXT", TTL := 120 } =
      (.ok { ID := 5, Host := "test1", Data := "new", Typ := "TXT", TTL := 120 },
       { zones := [("example.com", { Name := "example.com", ID := 99 })],
         knownRecords := [("example.com",
           [{ ID := 5, Host := "test1", Data := "new", Typ := "TXT", TTL := 120 }])] },
       [Request.postUpdate 99 5
          { ID := 5, Host := "test1", Data := "new", Typ := "TXT", TTL := 120 },
        Request.getRecords 99]) :=
  (c1_theorem
    { domains := fun _ => [{ Name := "example.com", ID := 99 }],
      records := fun _ =>
        [{ ID := 5, Host := "test1", Data := "new", Typ := "TXT", TTL := 120 }],
      createResp := fun _ r => r }
    { zones := [("example.com", { Name := "example.com", ID := 99 })] }
    "example.com"
    { ID := 5, Host := "test1", Data := "new", Typ := "TXT", TTL := 120 }
    { Name := "example.com", ID := 99 }
    { zones := [("example.com", { Name := "example.com", ID := 99 })] }
    [] rfl).1 rfl

/-- C6: deleting a record that is absent from the cache and still absent
from the freshly fetched zone snapshot returns success, and no delete
request is ever issued to the transport. -/
theorem c6_theorem (srv : Server) (s : ProviderState) (zone : String)
    (record : dsDNSRecord) (dom : dsZone) (s1 : ProviderState)
    (l1 : List Request)
    (hdom : getDomainInfo srv s zone = (.ok dom, s1, l1))
    (hmiss : getRecordFromKnownRecords s1 record zone = ({} : dsDNSRecord))
    (hsrv : findKnown record (srv.records dom.ID) = ({} : dsDNSRecord)) :
    ∃ s' log, deleteDNSRecord srv s zone record = (.ok (), s', log) ∧
      ∀ d i, Request.deleteReq d i ∉ log := by
  have hidem := getDomainInfo_ok_idem srv s s1 zone dom l1 hdom
  have hget := getDNSRecord_miss srv s1 s1 zone record dom [] hidem hmiss
  have hl1 : l1 = [] ∨ l1 = [Request.getDomains (removeFQDNTrailingDot zone)] := by
    have hlog := getDomainInfo_log srv s zone
    rw [hdom] at hlog
    simpa using hlog
  refine ⟨{ s1 with knownRecords := mapInsert s1.knownRecords zone (srv.records dom.ID) },
    l1 ++ [Request.getRecords dom.ID], ?_, ?_⟩
  · unfold deleteDNSRecord
    simp only [hdom, hget, hsrv]
    simp
  · intro d i hmem
    rcases hl1 with rfl | rfl <;> simp at hmem

/-- C6 witness: a concrete never-created record, through `c6_theorem`. -/
theorem c6_witness :
    ∃ s' log,
      deleteDNSRecord
        { domains := fun _ => [{ Name := "example.com", ID := 99 }],
          records := fun _ =>
            [{ ID := 5, Host := "test1", Data := "d", Typ := "TXT", TTL := 120 }],
          createResp := fun _ r => r }
        { zones := [("example.com", { Name := "example.com", ID := 99 })] }
        "example.com"
        { ID := 0, Host := "nosuch", Data := "x", Typ := "TXT" } =
        (.ok (), s', log) ∧
      ∀ d i, Request.deleteReq d i ∉ log :=
  c6_theorem
    { domains := fun _ => [{ Name := "example.com", ID := 99 }],
      records := fun _ =>
        [{ ID := 5, Host := "test1", Data := "d", Typ := "TXT", TTL := 120 }],
      createResp := fun _ r => r }
    { zones := [("example.com", { Name := "example.com", ID := 99 })] }
    "example.com"
    { ID := 0, Host := "nosuch", Data := "x", Typ := "TXT" }
    { Name := "example.com", ID := 99 }
    { zones := [("example.com", { Name := "example.com", ID := 99 })] }
    [] rfl rfl rfl

/-- C7: zone resolution — on a cache hit for the exact zone string the
cached value is returned with no network request; on a cache miss it
queries the remote provider, a result count other than one is a hard
error naming the count and the queried zone, and a single result is
stored under the original un-normalized zone string, after which
resolving that exact key again returns the cached value with no network
request. -/
theorem c7_theorem (srv : Server) (s : ProviderState) (zone : String) :
    (∀ z, mapLookup s.zones zone = some z →
      getDomainInfo srv s zone = (.ok z, s, [])) ∧
    (mapLookup s.zones zone = none →
      (∀ n, (srv.domains (removeFQDNTrailingDot zone)).length = n → n ≠ 1 →
        getDomainInfo srv s zone =
          (.error s!"expected 1 zone, got {n} for {zone}", s,
           [Request.getDomains (removeFQDNTrailingDot zone)])) ∧
      (∀ z, srv.domains (removeFQDNTrailingDot zone) = [z] →
        getDomainInfo srv s zone =
          (.ok z, { s with zones := mapInsert s.zones zone z },
           [Request.getDomains (removeFQDNTrailingDot zone)]) ∧
        getDomainInfo srv { s with zones := mapInsert s.zones zone z } zone =
          (.ok z, { s with zones := mapInsert s.zones zone z }, []))) := by
  refine ⟨?_, ?_⟩
  · intro z hz
    unfold getDomainInfo
    simp [hz]
  · intro hnone
    refine ⟨?_, ?_⟩
    · intro n hn h1
      unfold getDomainInfo
      simp only [hnone]
      rw [hn, if_neg h1]
    · intro z hz
      constructor
      · unfold getDomainInfo
        simp only [hnone, hz]
        simp
      · unfold getDomainInfo
        simp [mapLookup_mapInsert_self]

/-- C7 witness: both zone-resolution outcomes at concrete inputs — two
zones returned is the formatted hard error; one zone returned is cached
under the original string "example.com." and the repeated resolution is
request-free — through `c7_theorem`. -/
theorem c7_witness :
    getDomainInfo
      { domains := fun _ => [{ Name := "example.com", ID := 99 },
                             { Name := "example.com", ID := 100 }],
        records := fun _ => [], createResp := fun _ r => r }
      {} "example.com." =
      (.error "expected 1 zone, got 2 for example.com.", {},
       [Request.getDomains "example.com"]) ∧
    getDomainInfo
      { domains := fun _ => [{ Name := "example.com", ID := 99 }],
        records := fun _ => [], createResp := fun _ r => r }
      {} "example.com." =
      (.ok { Name := "example.com", ID := 99 },
       { zones := [("example.com.", { Name := "example.com", ID := 99 })] },
       [Request.getDomains "example.com"]) ∧
    getDomainInfo
      { domains := fun _ => [{ Name := "example.com", ID := 99 }],
        records := fun _ => [], createResp := fun _ r => r }
      { zones := [("example.com.", { Name := "example.com", ID := 99 })] }
      "example.com." =
      (.ok { Name := "example.com", ID := 99 },
       { zones := [("example.com.", { Name := "example.com", ID := 99 })] },
       []) :=
  ⟨((c7_theorem
      { domains := fun _ => [{ Name := "example.com", ID := 99 },
                             { Name := "example.com", ID := 100 }],
        records := fun _ => [], createResp := fun _ r => r }
      {} "example.com.").2 rfl).1 2 rfl (by decide),
   ((c7_theorem
      { domains := fun _ => [{ Name := "example.com", ID := 99 }],
        records := fun _ => [], createResp := fun _ r => r }
      {} "example.com.").2 rfl).2 { Name := "example.com", ID := 99 } rfl⟩

/-- C8: after a successful soft invalidation the zone's cached slice
keeps its length, only the tombstoned position changes (its identifier
reset to 0), and no cache lookup on the new state can ever return the
tombstoned entry, because every non-sentinel lookup result has a
non-zero identifier. -/
theorem c8_theorem (s s' : ProviderState) (record : dsDNSRecord) (zone : String)
    (h : removeRecordFromKnownRecords s record zone = (true, s')) :
    ∃ old i, mapLookup s.knownRecords zone = some old ∧ i < old.length ∧
      (old.getD i {}).ID = record.ID ∧ record.ID ≠ 0 ∧
      mapLookup s'.knownRecords zone =
        some (old.set i { old.getD i {} with ID := 0 }) ∧
      (old.set i { old.getD i {} with ID := 0 }).length = old.length ∧
      (∀ j, j ≠ i →
        (old.set i { old.getD i {} with ID := 0 }).getD j ({} : dsDNSRecord) =
          old.getD j {}) ∧
      (∀ cand z', { old.getD i {} with ID := 0 } ≠ ({} : dsDNSRecord) →
        getRecordFromKnownRecords s' cand z' ≠
          { old.getD i {} with ID := 0 }) := by
  unfold removeRecordFromKnownRecords at h
  cases hm : mapLookup s.knownRecords zone with
  | none =>
    rw [hm] at h
    exact absurd h (by simp)
  | some old =>
    simp only [hm] at h
    cases hz : zeroFirstMatch record old with
    | none =>
      simp only [hz] at h
      exact absurd h (by simp)
    | some newList =>
      simp only [hz] at h
      have hs' : s' = { s with knownRecords := mapInsert s.knownRecords zone newList } := by
        have := (Prod.mk.injEq .. ▸ h).2
        exact this.symm
      subst hs'
      obtain ⟨hnz, i, hi, hid, hset⟩ := zeroFirstMatch_spec record old newList hz
      refine ⟨old, i, rfl, hi, hid, hnz, ?_, by simp, ?_, ?_⟩
      · rw [← hset]
        exact mapLookup_mapInsert_self s.knownRecords zone newList
      · intro j hj
        simp only [List.getD_eq_getElem?_getD]
        rw [List.getElem?_set_ne (Ne.symm hj)]
      · intro cand z' hne hc
        rcases getRecordFromKnownRecords_empty_or_id_ne_zero
          { s with knownRecords := mapInsert s.knownRecords zone newList }
          cand z' with h0 | hnz0
        · rw [h0] at hc
          exact hne hc.symm
        · rw [hc] at hnz0
          simp at hnz0

/-- C8 witness: a concrete invalidation, through `c8_theorem`. -/
theorem c8_witness :
    ∃ old i,
      mapLookup
        ({ knownRecords := [("z",
            [{ ID := 5, Host := "h", Data := "d" }])] } : ProviderState).knownRecords
        "z" = some old ∧
      i < old.length ∧
      (old.getD i {}).ID = ({ ID := 5 } : dsDNSRecord).ID ∧
      ({ ID := 5 } : dsDNSRecord).ID ≠ 0 ∧
      mapLookup
        ({ knownRecords := [("z",
            [{ ID := 0, Host := "h", Data := "d" }])] } : ProviderState).knownRecords
        "z" = some (old.set i { old.getD i {} with ID := 0 }) ∧
      (old.set i { old.getD i {} with ID := 0 }).length = old.length ∧
      (∀ j, j ≠ i →
        (old.set i { old.getD i {} with ID := 0 }).getD j ({} : dsDNSRecord) =
          old.getD j {}) ∧
      (∀ cand z', { old.getD i {} with ID := 0 } ≠ ({} : dsDNSRecord) →
        getRecordFromKnownRecords
          { knownRecords := [("z", [{ ID := 0, Host := "h", Data := "d" }])] }
          cand z' ≠ { old.getD i {} with ID := 0 }) :=
  c8_theorem
    { knownRecords := [("z", [{ ID := 5, Host := "h", Data := "d" }])] }
    { knownRecords := [("z", [{ ID := 0, Host := "h", Data := "d" }])] }
    { ID := 5 } "z" rfl

/-- C10: the record returned by create is the caller's input with only
the host normalized and the identifier copied from the server response;
the request body is the same record with the TTL defaulted to 120
seconds when zero, and that default never reaches the returned record,
which keeps the input TTL (zero included) and every other input field. -/
theorem c10_theorem (srv : Server) (s : ProviderState) (zone : String)
    (record : dsDNSRecord) (dom : dsZone) (s1 : ProviderState)
    (l1 : List Request)
    (hdom : getDomainInfo srv s zone = (.ok dom, s1, l1)) :
    createDNSRecord srv s zone record =
      (.ok { record with
         Host := normalizeRecordName record.Host zone,
         ID := (srv.createResp dom.ID (createReqBody zone record)).ID },
       s1, l1 ++ [Request.postCreate dom.ID (createReqBody zone record)]) ∧
    (record.TTL = 0 → (createReqBody zone record).TTL = defaultTtlSeconds ∧
      ∀ res, (createDNSRecord srv s zone record).1 = .ok res →
        res.TTL = 0 ∧ res.Data = record.Data ∧ res.Typ = record.Typ ∧
        res.Priority = record.Priority ∧ res.Weight = record.Weight ∧
        res.Port = record.Port) := by
  have hmain : createDNSRecord srv s zone record =
      (.ok { record with
         Host := normalizeRecordName record.Host zone,
         ID := (srv.createResp dom.ID (createReqBody zone record)).ID },
       s1, l1 ++ [Request.postCreate dom.ID (createReqBody zone record)]) := by
    unfold createDNSRecord
    simp only [hdom, createReqBody]
  refine ⟨hmain, ?_⟩
  intro h0
  refine ⟨by simp [createReqBody, h0], ?_⟩
  intro res hres
  rw [hmain] at hres
  obtain rfl : { record with
      Host := normalizeRecordName record.Host zone,
      ID := (srv.createResp dom.ID (createReqBody zone record)).ID } = res := by
    injection hres
  exact ⟨h0, rfl, rfl, rfl, rfl, rfl⟩

/-- C10 witness: a create with zero TTL — the body carries TTL 120, the
returned record keeps TTL 0 and the input data, and only host and
identifier differ from the input — through `c10_theorem`. -/
theorem c10_witness :
    createDNSRecord
      { domains := fun _ => [{ Name := "example.com", ID := 99 }],
        records := fun _ => [],
        createResp := fun _ r => { r with ID := 77, Data := "echo", TTL := 3600 } }
      { zones := [("example.com.", { Name := "example.com", ID := 99 })] }
      "example.com."
      { Host := "www.example.com.", Data := "1.2.3.4", Typ := "A", TTL := 0 } =
      (.ok { ID := 77, Host := "www", Data := "1.2.3.4", Typ := "A", TTL := 0 },
       { zones := [("example.com.", { Name := "example.com", ID := 99 })] },
       [Request.postCreate 99
          { Host := "www", Data := "1.2.3.4", Typ := "A", TTL := 120 }]) :=
  (c10_theorem
    { domains := fun _ => [{ Name := "example.com", ID := 99 }],
      records := fun _ => [],
      createResp := fun _ r => { r with ID := 77, Data := "echo", TTL := 3600 } }
    { zones := [("example.com.", { Name := "example.com", ID := 99 })] }
    "example.com."
    { Host := "www.example.com.", Data := "1.2.3.4", Typ := "A", TTL := 0 }
    { Name := "example.com", ID := 99 }
    { zones := [("example.com.", { Name := "example.com", ID := 99 })] }
    [] rfl).1
